import Mathlib

/-!
Shallow embedding of the FutBot order-lifecycle and risk-gate core.

Prices, quantities and signal strengths are modelled as rationals;
the Python dictionaries holding tracked positions are modelled as
lists keyed by symbol.  Each definition is a direct translation of
the corresponding Python function named in its doc comment.
-/

/-- Order side, the `signal`/`side` string field ("BUY"/"SELL"). -/
inductive Side
  | BUY
  | SELL
  deriving DecidableEq, Repr

/-- A take-profit level: the `{'price': ..., 'percentage': ...}` dict. -/
structure TP where
  price : ℚ
  percentage : ℚ
  deriving DecidableEq, Repr

/-- One row of the exchange position-risk snapshot
(`getPositionRisk` response entry). -/
structure ExchangePosition where
  symbol : String
  positionAmt : ℚ
  entryPrice : ℚ
  markPrice : ℚ
  leverage : ℤ
  unrealizedProfit : ℚ
  deriving DecidableEq, Repr

/-- A trade signal, restricted to the fields `can_trade` reads
(`strength`, `atr`, `price`). -/
structure Signal where
  strength : ℚ
  atr : ℚ
  price : ℚ
  deriving DecidableEq, Repr

/-- The state read by `RiskManagement.can_trade`
(src/strategies/risk_management.py): the exchange position snapshot,
the configured limits, and the mutable risk bookkeeping
(`daily_pnl`, `position_strengths`, `last_trade_time`). -/
structure RiskState where
  positions : List ExchangePosition
  minStrength : ℚ
  dailyPnl : ℚ
  maxDailyLoss : ℚ
  maxPositions : ℕ
  positionStrengths : List (String × ℚ)
  lastTradeTime : List (String × ℚ)
  now : ℚ
  cooldown : ℚ
  deriving Repr

/-- Dictionary lookup with a default: Python `d.get(k, default)`. -/
def lookupD (l : List (String × ℚ)) (k : String) (d : ℚ) : ℚ :=
  match l.find? (fun p => p.1 == k) with
  | some p => p.2
  | none => d

/-- `min(self.position_strengths.items(), key=lambda x: abs(x[1]),
default=(None, 0))[0]` — the tracked symbol of smallest absolute
strength, the first one on ties, `none` when the dict is empty
(risk_management.py lines 59-63). -/
def weakestSymbol (l : List (String × ℚ)) : Option String :=
  match l with
  | [] => none
  | x :: xs =>
    some (xs.foldl (fun best y => if |y.2| < |best.2| then y else best) x).1

/-- Number of exchange positions with nonzero `positionAmt`
(risk_management.py lines 54-55). -/
def numOpenPositions (ps : List ExchangePosition) : ℕ :=
  (ps.filter (fun p => p.positionAmt ≠ 0)).length

/-- `RiskManagement.can_trade` (risk_management.py lines 22-96),
with the exchange call and config reads supplied by `st`.  The six
checks appear in source order; note that the displacement branch of
the capacity check returns `true` without reaching the volatility
and cooldown checks. -/
def can_trade (st : RiskState) (symbol : String) (sig : Signal) : Bool :=
  if (st.positions.find? (fun p => p.symbol == symbol && p.positionAmt ≠ 0)).isSome then
    false
  else if |sig.strength| < st.minStrength then
    false
  else if st.dailyPnl < -st.maxDailyLoss then
    false
  else if st.maxPositions ≤ numOpenPositions st.positions then
    match weakestSymbol st.positionStrengths with
    | some w =>
      if w ≠ "" then
        |sig.strength| > |lookupD st.positionStrengths w 0| * (12/10)
      else
        false
    | none => false
  else if (5/100 : ℚ) < sig.atr / sig.price then
    false
  else if st.now - lookupD st.lastTradeTime symbol 0 < st.cooldown then
    false
  else
    true

/-- Round-half-to-even on rationals, the tie-breaking rule of the
built-in `round` of Python 3. -/
def roundHalfEven (x : ℚ) : ℤ :=
  let n := ⌊x⌋
  let frac := x - n
  if frac < 1/2 then n
  else if 1/2 < frac then n + 1
  else if n % 2 = 0 then n
  else n + 1

/-- Python `round(x, p)` for a nonnegative digit count `p`. -/
def pyRound (x : ℚ) (p : ℕ) : ℚ :=
  (roundHalfEven (x * 10 ^ p) : ℚ) / 10 ^ p

/-- The between-attempt price nudge of
`OrderManager._place_orders_with_retry` (order_manager.py lines
374-380): multiply the stop-loss and every take-profit price by
`1.001` for a BUY position and by `0.999` for a SELL position,
rounding to the price precision. -/
def adjPrices (side : Side) (prec : ℕ) (sl : ℚ) (tps : List TP) : ℚ × List TP :=
  let f : ℚ := match side with
    | Side.BUY => 1001/1000
    | Side.SELL => 999/1000
  (pyRound (sl * f) prec, tps.map fun tp => ⟨pyRound (tp.price * f) prec, tp.percentage⟩)

/-- The `for attempt in range(max_retries)` loop of
`OrderManager._place_orders_with_retry` (order_manager.py lines
345-380).  `env a` is the outcome of placement attempt `a`:
`none` when the stop-loss and take-profit orders all go through,
`some msg` when the exchange raises an error with message `msg`.
`fuel` is the number of attempts still allowed; the returned list
records the `(stop-loss, take-profits)` price set used by each
attempt that was actually made. -/
def retryGo (env : ℕ → Option String) (side : Side) (prec : ℕ) :
    ℕ → ℕ → ℚ → List TP → List (ℚ × List TP) × Except String Unit
  | _, 0, _, _ => ([], Except.ok ())
  | attempt, fuel + 1, sl, tps =>
    match env attempt with
    | none => ([(sl, tps)], Except.ok ())
    | some msg =>
      if fuel = 0 then
        ([(sl, tps)], Except.error msg)
      else
        let next := adjPrices side prec sl tps
        let r := retryGo env side prec (attempt + 1) fuel next.1 next.2
        ((sl, tps) :: r.1, r.2)

/-- `OrderManager._place_orders_with_retry` with its default
`max_retries=3` (order_manager.py lines 343-380). -/
def place_orders_with_retry (env : ℕ → Option String) (side : Side) (prec : ℕ)
    (sl : ℚ) (tps : List TP) : List (ℚ × List TP) × Except String Unit :=
  retryGo env side prec 0 3 sl tps

/-- The price-adjustment block of the overriding (second)
definition of `OrderManager._place_sl_tp_orders` (order_manager.py
lines 293-325): the `(sl_price, adjusted_tps)` pair it passes on to
`_place_orders_with_retry`, with the stop-loss rounded at the call
site (line 332). -/
def adjustBracketPrices (side : Side) (current_price : ℚ) (prec : ℕ)
    (sl_price : ℚ) (take_profits : List TP) : ℚ × List TP :=
  match side with
  | Side.BUY =>
    let min_sl_diff := max (current_price * (15/10000)) (current_price * (5/10000))
    let min_tp_diff := max (current_price * (2/1000)) (current_price * (5/10000))
    let sl := max sl_price (current_price - min_sl_diff)
    let tps := take_profits.map fun tp =>
      ⟨pyRound (max tp.price (current_price + min_tp_diff)) prec, tp.percentage⟩
    (pyRound sl prec, tps)
  | Side.SELL =>
    let min_sl_diff := max (current_price * (15/10000)) (current_price * (5/10000))
    let min_tp_diff := max (current_price * (2/1000)) (current_price * (5/10000))
    let sl := min sl_price (current_price + min_sl_diff)
    let tps := take_profits.map fun tp =>
      ⟨pyRound (min tp.price (current_price - min_tp_diff)) prec, tp.percentage⟩
    (pyRound sl prec, tps)

/-- The overriding (second) definition of
`OrderManager._place_sl_tp_orders` (order_manager.py lines
285-341), the one Python binds to the attribute: adjust the prices
against the current market price, then place with retries.  It
performs no open-orders query, so the open-orders count
`openOrdersCount` of the exchange never influences the result. -/
def place_sl_tp_orders_v2 (env : ℕ → Option String) (openOrdersCount : ℕ)
    (side : Side) (current_price : ℚ) (prec : ℕ)
    (sl_price : ℚ) (take_profits : List TP) :
    List (ℚ × List TP) × Except String Unit :=
  let a := adjustBracketPrices side current_price prec sl_price take_profits
  place_orders_with_retry env side prec a.1 a.2

/-- The shadowed (first) definition of
`OrderManager._place_sl_tp_orders` (order_manager.py lines
122-155), restricted to the run where the individual order
placements succeed: after placing one stop and `take_profits.length`
take-profit orders it queries the open orders of the symbol and
raises when fewer than `1 + take_profits.length` are reported. -/
def place_sl_tp_orders_v1 (openOrdersCount : ℕ) (take_profits : List TP) :
    Except String Unit :=
  if openOrdersCount < take_profits.length + 1 then
    Except.error "Not all SL TP orders were placed"
  else
    Except.ok ()

/-- A locally tracked position: the dict built by
`OrderManager._record_position` (order_manager.py lines 157-168) or
by `PositionTracker.sync_with_exchange` adoption (position_tracker.py
lines 29-38).  `stop_loss` is `none` and `take_profits` is `[]` for
an adopted position whose protective levels are not yet known. -/
structure Position where
  symbol : String
  side : Side
  quantity : ℚ
  entry_price : ℚ
  entry_time : ℕ
  stop_loss : Option ℚ
  take_profits : List TP
  deriving DecidableEq, Repr

/-- A record of the closed-position history: the position dict after
`PositionTracker.close_position` added the four exit fields
(position_tracker.py lines 60-65). -/
structure ClosedPosition where
  pos : Position
  exit_price : ℚ
  exit_time : ℕ
  exit_reason : String
  pnl : ℚ
  deriving DecidableEq, Repr

/-- The in-memory state of `PositionTracker`
(position_tracker.py lines 3-8): `self.positions` (a dict keyed by
symbol, here a list whose entries carry their key in `.symbol`) and
`self.closed_positions`. -/
structure PositionTracker where
  positions : List Position
  closed_positions : List ClosedPosition
  deriving DecidableEq, Repr

/-- The key set of the `positions` dict. -/
def pt_keys (tr : PositionTracker) : List String :=
  tr.positions.map (fun p => p.symbol)

/-- `PositionTracker.get_position` (position_tracker.py lines 52-53). -/
def pt_get_position (tr : PositionTracker) (symbol : String) : Option Position :=
  tr.positions.find? (fun p => p.symbol == symbol)

/-- `PositionTracker.add_position` (position_tracker.py lines 43-50):
a duplicate symbol is rejected with a warning and the tracker is
left unchanged, otherwise the position is inserted. -/
def pt_add_position (tr : PositionTracker) (p : Position) : PositionTracker :=
  if (pt_get_position tr p.symbol).isSome then tr
  else { tr with positions := tr.positions ++ [p] }

/-- `PositionTracker.close_position` (position_tracker.py lines
55-68): a symbol that is not tracked is ignored; otherwise the
position receives the four exit fields, is appended to
`closed_positions` and deleted from `positions`.  `now` stands for
`datetime.utcnow()`. -/
def pt_close_position (tr : PositionTracker) (symbol : String) (exit_price : ℚ)
    (now : ℕ) (exit_reason : String) (pnl : ℚ) : PositionTracker :=
  match pt_get_position tr symbol with
  | none => tr
  | some pos =>
    { positions := tr.positions.filter (fun p => ¬(p.symbol == symbol)),
      closed_positions := tr.closed_positions ++ [⟨pos, exit_price, now, exit_reason, pnl⟩] }

/-- `PositionTracker.get_total_pnl` (position_tracker.py lines 78-79). -/
def pt_get_total_pnl (tr : PositionTracker) : ℚ :=
  (tr.closed_positions.map (fun c => c.pnl)).sum

/-- First snapshot row for a symbol:
`next((p for p in exchange_positions if p['symbol'] == symbol), None)`
(position_tracker.py line 17). -/
def snapFind (snap : List ExchangePosition) (symbol : String) : Option ExchangePosition :=
  snap.find? (fun p => p.symbol == symbol)

/-- Whether the first loop of `sync_with_exchange` force-closes a
locally tracked symbol: it is absent from the snapshot or reported
with `positionAmt == 0` (position_tracker.py line 18). -/
def shouldCloseExternally (snap : List ExchangePosition) (symbol : String) : Bool :=
  match snapFind snap symbol with
  | none => true
  | some p => p.positionAmt == 0

/-- The exit price recorded by the force-close:
`float(pos['markPrice']) if pos else 0` (position_tracker.py line 21). -/
def syncExitPrice (snap : List ExchangePosition) (symbol : String) : ℚ :=
  match snapFind snap symbol with
  | none => 0
  | some p => p.markPrice

/-- The pnl recorded by the force-close:
`float(pos['unrealizedProfit']) if pos else 0`
(position_tracker.py line 23). -/
def syncPnl (snap : List ExchangePosition) (symbol : String) : ℚ :=
  match snapFind snap symbol with
  | none => 0
  | some p => p.unrealizedProfit

/-- One iteration of the first loop of
`PositionTracker.sync_with_exchange` (position_tracker.py lines
16-24), for the tracked symbol `symbol`. -/
def sync_close_step (now : ℕ) (snap : List ExchangePosition)
    (tr : PositionTracker) (symbol : String) : PositionTracker :=
  if shouldCloseExternally snap symbol then
    pt_close_position tr symbol (syncExitPrice snap symbol) now "external_close"
      (syncPnl snap symbol)
  else tr

/-- The `Position` dict built by the adoption branch of
`sync_with_exchange` for the snapshot row `p`
(position_tracker.py lines 29-38): side from the sign of
`positionAmt`, quantity its absolute value, `stop_loss` and
`take_profits` left unset. -/
def adoptedPosition (now : ℕ) (p : ExchangePosition) : Position :=
  ⟨p.symbol, if p.positionAmt > 0 then Side.BUY else Side.SELL,
    |p.positionAmt|, p.entryPrice, now, none, []⟩

/-- One iteration of the second loop of
`PositionTracker.sync_with_exchange` (position_tracker.py lines
27-38), for the snapshot row `p`. -/
def sync_adopt_step (now : ℕ) (tr : PositionTracker) (p : ExchangePosition) :
    PositionTracker :=
  if p.positionAmt ≠ 0 ∧ pt_get_position tr p.symbol = none then
    pt_add_position tr (adoptedPosition now p)
  else tr

/-- `PositionTracker.sync_with_exchange` (position_tracker.py lines
10-41): first force-close every tracked symbol the exchange no
longer reports open (iterating over `list(self.positions.keys())`),
then adopt every open exchange position that is not tracked. -/
def sync_with_exchange (now : ℕ) (tr : PositionTracker)
    (snap : List ExchangePosition) : PositionTracker :=
  let tr1 := (pt_keys tr).foldl (sync_close_step now snap) tr
  snap.foldl (sync_adopt_step now) tr1

/-- `OrderManager._calculate_pnl` (order_manager.py lines 548-552). -/
def calculate_pnl (position : Position) (exit_price : ℚ) : ℚ :=
  match position.side with
  | Side.BUY => (exit_price - position.entry_price) * position.quantity
  | Side.SELL => (position.entry_price - exit_price) * position.quantity

/-- The side opposite to a position's side:
`"SELL" if position['side'] == "BUY" else "BUY"`. -/
def oppositeSide (s : Side) : Side :=
  match s with
  | Side.BUY => Side.SELL
  | Side.SELL => Side.BUY

/-- An order request handed to `client.create_order`.  `reduceOnly`
is `true` exactly when the call passes `reduceOnly=True` or
`reduceOnly="true"`; `create_order` itself adds no reduce-only flag
(binance_client.py lines 159-192). -/
structure OrderReq where
  symbol : String
  side : Side
  quantity : ℚ
  order_type : String
  reduceOnly : Bool
  deriving DecidableEq, Repr

/-- Environment of one `OrderManager.close_position` run: the
current close price fetched from klines, whether the exchange
returns a truthy order result, whether the bookkeeping block after
the order raises (for example the `self.risk_manager` attribute
lookup), and the wall-clock time. -/
structure OmCloseEnv where
  current_price : ℚ
  orderResultOk : Bool
  postUpdateErr : Bool
  time : ℕ
  deriving DecidableEq, Repr

/-- Observable outcome of `OrderManager.close_position`: returned
value (`none` stands for Python `None`), the order requests sent to
the exchange, the tracker afterwards, and the pnl the function
computed (if it got that far). -/
structure OmCloseOutcome where
  result : Option Unit
  ordersPlaced : List OrderReq
  tracker : PositionTracker
  pnlComputed : Option ℚ
  deriving DecidableEq, Repr

/-- `OrderManager.close_position` (order_manager.py lines 439-495):
an untracked symbol returns `None` with no exchange call; otherwise
the pnl is computed with `_calculate_pnl` at the fetched price and a
plain `MARKET` order for the full quantity on the opposite side is
sent — with no reduce-only flag.  Any exception in the bookkeeping
after the order is caught and turns the result into `None` with the
tracker untouched. -/
def om_close_position (tr : PositionTracker) (env : OmCloseEnv)
    (symbol reason : String) : OmCloseOutcome :=
  match pt_get_position tr symbol with
  | none => ⟨none, [], tr, none⟩
  | some position =>
    let pnl := calculate_pnl position env.current_price
    let req : OrderReq :=
      ⟨symbol, oppositeSide position.side, position.quantity, "MARKET", false⟩
    if env.orderResultOk then
      if env.postUpdateErr then
        ⟨none, [req], tr, some pnl⟩
      else
        ⟨some (), [req],
          pt_close_position tr symbol env.current_price env.time reason pnl,
          some pnl⟩
    else
      ⟨none, [req], tr, some pnl⟩

/-- Boolean substring test: Python `sub in s`. -/
def containsSub (s sub : String) : Bool :=
  (List.range (s.length + 1)).any fun i => List.isPrefixOf sub.data (s.data.drop i)

/-- The error text `place_order` looks for
(order_manager.py line 57). -/
def wouldTriggerMsg : String := "Order would immediately trigger"

/-- Environment of one `OrderManager.place_order` run: for each of
the four fallible phases of the body — the existing-position check
(step 1), entry execution and fill verification (steps 2-3), fill
price resolution (step 4) and bracket placement (step 5) — either
`none` (the phase succeeds) or `some msg` (the phase raises with
message `msg`). -/
structure PlaceOrderEnv where
  checkExistingErr : Option String
  entryErr : Option String
  fillPriceErr : Option String
  bracketErr : Option String
  deriving DecidableEq, Repr

/-- The first error the `try` body of `place_order` raises, if any. -/
def placeOrderBodyErr (env : PlaceOrderEnv) : Option String :=
  match env.checkExistingErr with
  | some m => some m
  | none =>
    match env.entryErr with
    | some m => some m
    | none =>
      match env.fillPriceErr with
      | some m => some m
      | none => env.bracketErr

/-- Whether the run got past entry execution, so a market entry
order was filled on the exchange. -/
def entryFilledB (env : PlaceOrderEnv) : Bool :=
  env.checkExistingErr.isNone && env.entryErr.isNone

/-- Whether the run reached step 6, recording the position in the
tracker (record itself does not raise). -/
def recordedB (env : PlaceOrderEnv) : Bool :=
  entryFilledB env && env.fillPriceErr.isNone && env.bracketErr.isNone

/-- How a `place_order` run ends: the filled order is returned,
`None` is returned (candidate deferred), or the error propagates to
the caller. -/
inductive PlaceOrderResult
  | filled
  | deferred
  | raised (msg : String)
  deriving DecidableEq, Repr

/-- Observable outcome of `OrderManager.place_order`:
how it returned, whether `_handle_failure` ran (cancel-all plus
flatten rollback, order_manager.py lines 184-212), whether the entry
order had filled, and whether the position was recorded. -/
structure PlaceOrderOutcome where
  result : PlaceOrderResult
  rollbackInvoked : Bool
  entryFilled : Bool
  positionRecorded : Bool
  deriving DecidableEq, Repr

/-- `OrderManager.place_order` (order_manager.py lines 16-61),
abstracted over the outcomes of its fallible phases.  The single
`except` clause covers the whole body: an error whose text contains
"Order would immediately trigger" makes the call return `None`
without `_handle_failure`, wherever it arose; every other error
first runs `_handle_failure` and is then re-raised. -/
def place_order (env : PlaceOrderEnv) : PlaceOrderOutcome :=
  match placeOrderBodyErr env with
  | none => ⟨PlaceOrderResult.filled, false, true, true⟩
  | some msg =>
    if containsSub msg wouldTriggerMsg then
      ⟨PlaceOrderResult.deferred, false, entryFilledB env, recordedB env⟩
    else
      ⟨PlaceOrderResult.raised msg, true, entryFilledB env, recordedB env⟩

/-- A concrete one-position ledger used to exercise the
reconciliation and uniqueness theorems. -/
def trX : PositionTracker :=
  ⟨[⟨"X", Side.BUY, 1, 100, 0, some 95, []⟩], []⟩

/-- A concrete exchange snapshot: "X" reported flat
(`positionAmt = 0`), "Z" open short 3 and not locally tracked. -/
def snapX : List ExchangePosition :=
  [⟨"X", 0, 100, 105, 5, 25⟩, ⟨"Z", -3, 50, 50, 2, 0⟩]

/-- A risk state at capacity: one open exchange position ("Y"),
`max_concurrent_positions = 1`, tracked strength 0.40 for "Y",
default `min_signal_strength` 0.35, daily pnl 0 against a 5 percent limit,
and "X" last traded 5 seconds ago against a 60-second cooldown. -/
def stCap : RiskState :=
  ⟨[⟨"Y", 1, 100, 100, 1, 0⟩], 35/100, 0, 5, 1, [("Y", 2/5)], [("X", 995)], 1000, 60⟩

/-- A high-volatility strong signal: strength 0.9,
`atr/price = 0.10`, twice the 5 percent volatility bound. -/
def sigHighVol : Signal := ⟨9/10, 10, 100⟩

/-- A risk state below capacity with no open positions and an empty
trade history. -/
def stLow : RiskState :=
  ⟨[], 35/100, 0, 5, 5, [], [], 1000, 60⟩

/-- A mild admissible signal: strength 0.5, `atr/price = 0.01`. -/
def sigMild : Signal := ⟨1/2, 1, 100⟩

/-- An exchange that rejects every placement attempt with the same
error message. -/
def envFail : ℕ → Option String := fun _ => some "margin check failed"

/-- A run whose entry execution raises the price-staleness error. -/
def envDefer : PlaceOrderEnv :=
  ⟨none, some "APIError(-2021): Order would immediately trigger.", none, none⟩

/-- A run whose entry execution raises an unrelated error. -/
def envHardFail : PlaceOrderEnv :=
  ⟨none, some "Margin is insufficient", none, none⟩

/-- A run where entry fills and only bracket placement raises the
price-staleness error. -/
def envBracketDefer : PlaceOrderEnv :=
  ⟨none, none, none, some "APIError(-2021): Order would immediately trigger."⟩

/-- A ledger tracking one BUY position: entry 100, quantity 2. -/
def trBuy : PositionTracker :=
  ⟨[⟨"BTC", Side.BUY, 2, 100, 0, some 95, []⟩], []⟩

/-- A ledger tracking one SELL position: entry 100, quantity 2. -/
def trSell : PositionTracker :=
  ⟨[⟨"ETH", Side.SELL, 2, 100, 0, some 105, []⟩], []⟩

/-- A `close_position` run at current price 110 where the close
order succeeds and the bookkeeping block does not raise. -/
def envClose110 : OmCloseEnv := ⟨110, true, false, 5⟩

/-- A `close_position` run at current price 90. -/
def envClose90 : OmCloseEnv := ⟨90, true, false, 5⟩

/-! ### Supporting lemmas about the Position Ledger -/

theorem pt_get_none_iff (tr : PositionTracker) (sym : String) :
    pt_get_position tr sym = none ↔ sym ∉ pt_keys tr := by
  simp [pt_get_position, pt_keys, List.find?_eq_none, List.mem_map]

theorem pt_get_isSome_iff (tr : PositionTracker) (sym : String) :
    (pt_get_position tr sym).isSome = true ↔ sym ∈ pt_keys tr := by
  rcases h : pt_get_position tr sym with _ | pos
  · simp [(pt_get_none_iff tr sym).mp h]
  · simp
    have h1 := List.mem_of_find?_eq_some h
    have h2 := List.find?_some h
    simp at h2
    simp [pt_keys, List.mem_map]
    exact ⟨pos, h1, h2⟩

theorem pt_get_mem (tr : PositionTracker) (sym : String) (pos : Position)
    (h : pt_get_position tr sym = some pos) :
    pos ∈ tr.positions ∧ pos.symbol = sym := by
  refine ⟨List.mem_of_find?_eq_some h, ?_⟩
  have h2 := List.find?_some h
  simpa using h2

theorem pt_add_keys_nodup (tr : PositionTracker) (p : Position)
    (h : (pt_keys tr).Nodup) : (pt_keys (pt_add_position tr p)).Nodup := by
  unfold pt_add_position
  rcases hs : (pt_get_position tr p.symbol).isSome with _ | _
  · simp only [hs, Bool.false_eq_true, if_false]
    have hnot : p.symbol ∉ pt_keys tr := by
      rw [← pt_get_isSome_iff, hs]
      simp
    simp [pt_keys, List.nodup_append]
    exact ⟨by simpa [pt_keys] using h, by simpa [pt_keys] using hnot⟩
  · simp only [hs, if_true]
    exact h

theorem pt_close_keys_not_mem (tr : PositionTracker) (sym : String)
    (exit_price : ℚ) (now : ℕ) (reason : String) (pnl : ℚ) (pos : Position)
    (h : pt_get_position tr sym = some pos) :
    sym ∉ pt_keys (pt_close_position tr sym exit_price now reason pnl) := by
  unfold pt_close_position
  rw [h]
  simp [pt_keys, List.mem_map, List.mem_filter]

theorem pt_close_keys_nodup (tr : PositionTracker) (sym : String)
    (exit_price : ℚ) (now : ℕ) (reason : String) (pnl : ℚ)
    (h : (pt_keys tr).Nodup) :
    (pt_keys (pt_close_position tr sym exit_price now reason pnl)).Nodup := by
  unfold pt_close_position
  rcases hg : pt_get_position tr sym with _ | pos
  · exact h
  · have : (tr.positions.filter (fun p => ¬(p.symbol == sym))).Sublist tr.positions :=
      List.filter_sublist _
    exact List.Nodup.sublist (List.Sublist.map _ this) h

theorem pt_close_closed_eq (tr : PositionTracker) (sym : String)
    (exit_price : ℚ) (now : ℕ) (reason : String) (pnl : ℚ) (pos : Position)
    (h : pt_get_position tr sym = some pos) :
    (pt_close_position tr sym exit_price now reason pnl).closed_positions =
      tr.closed_positions ++ [⟨pos, exit_price, now, reason, pnl⟩] := by
  unfold pt_close_position
  rw [h]

theorem pt_close_not_mem_keys (tr : PositionTracker) (sym other : String)
    (exit_price : ℚ) (now : ℕ) (reason : String) (pnl : ℚ)
    (h : other ∉ pt_keys tr) :
    other ∉ pt_keys (pt_close_position tr sym exit_price now reason pnl) := by
  unfold pt_close_position
  rcases hg : pt_get_position tr sym with _ | pos
  · exact h
  · intro hmem
    apply h
    simp only [pt_keys, List.mem_map] at hmem ⊢
    obtain ⟨q, hq, hsym⟩ := hmem
    exact ⟨q, (List.mem_filter.mp hq).1, hsym⟩

theorem foldl_preserve {α β : Type} (P : α → Prop) (f : α → β → α)
    (hf : ∀ a b, P a → P (f a b)) :
    ∀ (l : List β) (a : α), P a → P (l.foldl f a) := by
  intro l
  induction l with
  | nil => intro a ha; exact ha
  | cons b bs ih => intro a ha; exact ih (f a b) (hf a b ha)

theorem find?_filter_of_imp {α : Type} (p q : α → Bool) (l : List α)
    (h : ∀ a, p a = true → q a = true) :
    (l.filter q).find? p = l.find? p := by
  induction l with
  | nil => rfl
  | cons x xs ih =>
    by_cases hq : q x = true
    · rw [List.filter_cons_of_pos hq]
      by_cases hp : p x = true
      · rw [List.find?_cons_of_pos _ hp, List.find?_cons_of_pos _ hp]
      · rw [List.find?_cons_of_neg _ hp, List.find?_cons_of_neg _ hp]
        exact ih
    · have hp : ¬p x = true := fun hpx => hq (h x hpx)
      rw [List.filter_cons_of_neg (by simpa using hq), List.find?_cons_of_neg _ hp]
      exact ih

theorem find?_filter_other (l : List Position) (s t : String) (hst : s ≠ t) :
    (l.filter (fun p => ¬(p.symbol == t))).find? (fun p => p.symbol == s) =
      l.find? (fun p => p.symbol == s) := by
  apply find?_filter_of_imp
  intro a ha
  have has : a.symbol = s := by simpa using ha
  have hat : ¬a.symbol = t := by
    rw [has]
    exact hst
  simpa using hat

theorem pt_close_get_other (tr : PositionTracker) (t s : String)
    (exit_price : ℚ) (now : ℕ) (reason : String) (pnl : ℚ) (hst : s ≠ t) :
    pt_get_position (pt_close_position tr t exit_price now reason pnl) s =
      pt_get_position tr s := by
  unfold pt_close_position
  rcases hg : pt_get_position tr t with _ | pos
  · rfl
  · simp only [pt_get_position]
    exact find?_filter_other tr.positions s t hst

theorem sync_close_step_get_other (now : ℕ) (snap : List ExchangePosition)
    (tr : PositionTracker) (t s : String) (hst : s ≠ t) :
    pt_get_position (sync_close_step now snap tr t) s = pt_get_position tr s := by
  unfold sync_close_step
  by_cases h : shouldCloseExternally snap t = true
  · simp only [h, if_true]
    exact pt_close_get_other tr t s _ now _ _ hst
  · rw [show shouldCloseExternally snap t = false by simpa using h]
    simp

theorem sync_close_step_not_mem (now : ℕ) (snap : List ExchangePosition)
    (tr : PositionTracker) (t s : String) (h : s ∉ pt_keys tr) :
    s ∉ pt_keys (sync_close_step now snap tr t) := by
  unfold sync_close_step
  by_cases hc : shouldCloseExternally snap t = true
  · simp only [hc, if_true]
    exact pt_close_not_mem_keys tr t s _ now _ _ h
  · simp only [hc, if_false]
    exact h

theorem sync_close_step_closed_mono (now : ℕ) (snap : List ExchangePosition)
    (tr : PositionTracker) (t : String) (cp : ClosedPosition)
    (h : cp ∈ tr.closed_positions) :
    cp ∈ (sync_close_step now snap tr t).closed_positions := by
  unfold sync_close_step
  by_cases hc : shouldCloseExternally snap t = true
  · simp only [hc, if_true]
    unfold pt_close_position
    rcases hg : pt_get_position tr t with _ | pos
    · exact h
    · simp
      exact Or.inl h
  · simp only [hc, if_false]
    exact h

theorem close_loop_spec (now : ℕ) (snap : List ExchangePosition) :
    ∀ (ks : List String) (tr : PositionTracker) (sym : String) (pos : Position),
      sym ∈ ks → shouldCloseExternally snap sym = true →
      pt_get_position tr sym = some pos →
      sym ∉ pt_keys (ks.foldl (sync_close_step now snap) tr) ∧
      (⟨pos, syncExitPrice snap sym, now, "external_close", syncPnl snap sym⟩ :
          ClosedPosition) ∈ (ks.foldl (sync_close_step now snap) tr).closed_positions := by
  intro ks
  induction ks with
  | nil => intro tr sym pos hmem; exact absurd hmem (List.not_mem_nil sym)
  | cons t rest ih =>
    intro tr sym pos hmem hclose hget
    by_cases hts : sym = t
    · subst hts
      have hstep : sync_close_step now snap tr sym =
          pt_close_position tr sym (syncExitPrice snap sym) now "external_close"
            (syncPnl snap sym) := by
        unfold sync_close_step
        simp [hclose]
      rw [List.foldl_cons, hstep]
      constructor
      · refine foldl_preserve (fun x => sym ∉ pt_keys x) (sync_close_step now snap)
          (fun a b hp => sync_close_step_not_mem now snap a b sym hp) rest _ ?_
        exact pt_close_keys_not_mem tr sym _ now _ _ pos hget
      · refine foldl_preserve
          (fun x => (⟨pos, syncExitPrice snap sym, now, "external_close",
              syncPnl snap sym⟩ : ClosedPosition) ∈ x.closed_positions)
          (sync_close_step now snap)
          (fun a b hp => sync_close_step_closed_mono now snap a b _ hp) rest _ ?_
        show (⟨pos, syncExitPrice snap sym, now, "external_close",
            syncPnl snap sym⟩ : ClosedPosition) ∈
          (pt_close_position tr sym (syncExitPrice snap sym) now "external_close"
            (syncPnl snap sym)).closed_positions
        rw [pt_close_closed_eq tr sym _ now _ _ pos hget]
        simp
    · have hmem2 : sym ∈ rest := by
        rcases List.mem_cons.mp hmem with h | h
        · exact absurd h hts
        · exact h
      have hget2 : pt_get_position (sync_close_step now snap tr t) sym = some pos := by
        rw [sync_close_step_get_other now snap tr t sym hts]
        exact hget
      rw [List.foldl_cons]
      exact ih (sync_close_step now snap tr t) sym pos hmem2 hclose hget2

theorem pt_add_closed (tr : PositionTracker) (p : Position) :
    (pt_add_position tr p).closed_positions = tr.closed_positions := by
  unfold pt_add_position
  split
  · rfl
  · rfl

theorem pt_add_keys_sub (tr : PositionTracker) (p : Position) (s : String)
    (h : s ∈ pt_keys (pt_add_position tr p)) : s ∈ pt_keys tr ∨ s = p.symbol := by
  unfold pt_add_position at h
  split at h
  · exact Or.inl h
  · simp only [pt_keys, List.map_append, List.mem_append] at h
    rcases h with h | h
    · exact Or.inl h
    · simp at h
      exact Or.inr h

theorem pt_add_get_stable (tr : PositionTracker) (p : Position) (s : String)
    (x : Position) (h : pt_get_position tr s = some x) :
    pt_get_position (pt_add_position tr p) s = some x := by
  unfold pt_add_position
  split
  · exact h
  · unfold pt_get_position at h ⊢
    simp only [List.find?_append, h]
    rfl

theorem pt_add_get_new (tr : PositionTracker) (p : Position)
    (h : pt_get_position tr p.symbol = none) :
    pt_get_position (pt_add_position tr p) p.symbol = some p := by
  unfold pt_add_position
  rw [h]
  simp only [Option.isSome_none, Bool.false_eq_true, if_false]
  unfold pt_get_position at h ⊢
  simp only [List.find?_append, h]
  simp

theorem sync_adopt_step_closed (now : ℕ) (tr : PositionTracker)
    (p : ExchangePosition) :
    (sync_adopt_step now tr p).closed_positions = tr.closed_positions := by
  unfold sync_adopt_step
  split
  · exact pt_add_closed tr _
  · rfl

theorem sync_adopt_closed (now : ℕ) :
    ∀ (l : List ExchangePosition) (tr : PositionTracker),
      (l.foldl (sync_adopt_step now) tr).closed_positions = tr.closed_positions := by
  intro l
  induction l with
  | nil => intro tr; rfl
  | cons p rest ih =>
    intro tr
    rw [List.foldl_cons, ih, sync_adopt_step_closed]

theorem sync_adopt_step_not_mem (now : ℕ) (tr : PositionTracker)
    (p : ExchangePosition) (s : String) (hs : s ∉ pt_keys tr)
    (hp : p.symbol = s → p.positionAmt = 0) :
    s ∉ pt_keys (sync_adopt_step now tr p) := by
  unfold sync_adopt_step
  split
  · rename_i hcond
    intro hmem
    rcases pt_add_keys_sub tr _ s hmem with h | h
    · exact hs h
    · have hsym : s = p.symbol := h
      exact hcond.1 (hp hsym.symm)
  · exact hs

theorem sync_adopt_not_mem (now : ℕ) :
    ∀ (l : List ExchangePosition) (tr : PositionTracker) (s : String),
      s ∉ pt_keys tr → (∀ p ∈ l, p.symbol = s → p.positionAmt = 0) →
      s ∉ pt_keys (l.foldl (sync_adopt_step now) tr) := by
  intro l
  induction l with
  | nil => intro tr s hs _; exact hs
  | cons p rest ih =>
    intro tr s hs hl
    rw [List.foldl_cons]
    refine ih _ s ?_ ?_
    · exact sync_adopt_step_not_mem now tr p s hs (hl p (List.mem_cons_self p rest))
    · intro q hq
      exact hl q (List.mem_cons_of_mem p hq)

theorem sync_adopt_step_get_stable (now : ℕ) (tr : PositionTracker)
    (p : ExchangePosition) (s : String) (x : Position)
    (h : pt_get_position tr s = some x) :
    pt_get_position (sync_adopt_step now tr p) s = some x := by
  unfold sync_adopt_step
  split
  · exact pt_add_get_stable tr _ s x h
  · exact h

theorem sync_adopt_get_stable (now : ℕ) :
    ∀ (l : List ExchangePosition) (tr : PositionTracker) (s : String) (x : Position),
      pt_get_position tr s = some x →
      pt_get_position (l.foldl (sync_adopt_step now) tr) s = some x := by
  intro l
  induction l with
  | nil => intro tr s x h; exact h
  | cons p rest ih =>
    intro tr s x h
    rw [List.foldl_cons]
    exact ih _ s x (sync_adopt_step_get_stable now tr p s x h)

theorem adopt_loop_adds (now : ℕ) :
    ∀ (l : List ExchangePosition) (tr : PositionTracker) (p : ExchangePosition),
      p ∈ l → (l.map (fun q => q.symbol)).Nodup →
      p.positionAmt ≠ 0 → p.symbol ∉ pt_keys tr →
      pt_get_position (l.foldl (sync_adopt_step now) tr) p.symbol =
        some (adoptedPosition now p) := by
  intro l
  induction l with
  | nil => intro tr p hmem; exact absurd hmem (List.not_mem_nil p)
  | cons q rest ih =>
    intro tr p hmem hnd hamt hkeys
    rw [List.foldl_cons]
    rcases List.mem_cons.mp hmem with rfl | hmem2
    · have hget : pt_get_position tr p.symbol = none := (pt_get_none_iff tr _).mpr hkeys
      have hstep : sync_adopt_step now tr p = pt_add_position tr (adoptedPosition now p) := by
        unfold sync_adopt_step
        rw [if_pos ⟨hamt, hget⟩]
      rw [hstep]
      refine sync_adopt_get_stable now rest _ p.symbol (adoptedPosition now p) ?_
      exact pt_add_get_new tr (adoptedPosition now p) hget
    · have hqp : q.symbol ≠ p.symbol := by
        simp only [List.map_cons, List.nodup_cons] at hnd
        intro h
        apply hnd.1
        rw [h]
        exact List.mem_map.mpr ⟨p, hmem2, rfl⟩
      have hnd2 : (rest.map (fun r => r.symbol)).Nodup := by
        simp only [List.map_cons, List.nodup_cons] at hnd
        exact hnd.2
      refine ih _ p hmem2 hnd2 hamt ?_
      unfold sync_adopt_step
      split
      · intro hmem3
        rcases pt_add_keys_sub tr _ p.symbol hmem3 with h | h
        · exact hkeys h
        · exact hqp (by exact h.symm)
      · exact hkeys

theorem shouldClose_all_zero (snap : List ExchangePosition) (sym : String)
    (hnd : (snap.map (fun q => q.symbol)).Nodup)
    (hc : shouldCloseExternally snap sym = true) :
    ∀ p ∈ snap, p.symbol = sym → p.positionAmt = 0 := by
  intro p hp hsym
  unfold shouldCloseExternally snapFind at hc
  rcases hfind : snap.find? (fun q => q.symbol == sym) with _ | p0
  · have := List.find?_eq_none.mp hfind p hp
    simp [hsym] at this
  · rw [hfind] at hc
    have h0 : p0.positionAmt = 0 := by simpa using hc
    have hp0mem := List.mem_of_find?_eq_some hfind
    have hp0sym : p0.symbol = sym := by simpa using List.find?_some hfind
    have hpp : p = p0 :=
      List.inj_on_of_nodup_map hnd hp hp0mem (by rw [hsym, hp0sym])
    rw [hpp]
    exact h0

/-! ### Claim theorems -/

/-- Claim C8: reconciliation postcondition of
`PositionTracker.sync_with_exchange`.  For every ledger state and
exchange snapshot (with one row per symbol), every locally tracked
symbol that the snapshot omits or reports with `positionAmt = 0` is
removed from the open positions and recorded in the closed history
with exit reason "external_close", the snapshot's mark price as exit
price and its unrealized profit as pnl (price and pnl are 0 for an
omitted symbol, where the snapshot reports nothing); and every
snapshot row with nonzero `positionAmt` whose symbol is not tracked
is adopted with `stop_loss` and `take_profits` left unset. -/
theorem sync_with_exchange_reconciles (tr : PositionTracker)
    (snap : List ExchangePosition) (now : ℕ)
    (hsnap : (snap.map (fun p => p.symbol)).Nodup) :
    (∀ sym ∈ pt_keys tr, shouldCloseExternally snap sym = true →
        sym ∉ pt_keys (sync_with_exchange now tr snap) ∧
        ∃ pos, pt_get_position tr sym = some pos ∧
          (⟨pos, syncExitPrice snap sym, now, "external_close", syncPnl snap sym⟩ :
            ClosedPosition) ∈ (sync_with_exchange now tr snap).closed_positions) ∧
    (∀ p ∈ snap, p.positionAmt ≠ 0 → p.symbol ∉ pt_keys tr →
        pt_get_position (sync_with_exchange now tr snap) p.symbol =
          some (adoptedPosition now p) ∧
        (adoptedPosition now p).stop_loss = none ∧
        (adoptedPosition now p).take_profits = []) := by
  constructor
  · intro sym hmem hc
    obtain ⟨pos, hget⟩ : ∃ pos, pt_get_position tr sym = some pos := by
      have hs := (pt_get_isSome_iff tr sym).mpr hmem
      rcases h : pt_get_position tr sym with _ | pos
      · rw [h] at hs
        simp at hs
      · exact ⟨pos, rfl⟩
    have h1 := close_loop_spec now snap (pt_keys tr) tr sym pos hmem hc hget
    have hall : ∀ p ∈ snap, p.symbol = sym → p.positionAmt = 0 :=
      shouldClose_all_zero snap sym hsnap hc
    constructor
    · exact sync_adopt_not_mem now snap _ sym h1.1 hall
    · refine ⟨pos, hget, ?_⟩
      show _ ∈ (List.foldl (sync_adopt_step now) _ snap).closed_positions
      rw [sync_adopt_closed]
      exact h1.2
  · intro p hp hamt hkeys
    have hkeys1 : p.symbol ∉ pt_keys ((pt_keys tr).foldl (sync_close_step now snap) tr) :=
      foldl_preserve (fun x => p.symbol ∉ pt_keys x) (sync_close_step now snap)
        (fun a b hpp => sync_close_step_not_mem now snap a b p.symbol hpp) _ tr hkeys
    exact ⟨adopt_loop_adds now snap _ p hp hsnap hamt hkeys1, rfl, rfl⟩

/-- Witness for C8: on the concrete ledger `trX` and snapshot
`snapX`, reconciliation closes "X" with reason "external_close",
mark price 105 and pnl 25, and adopts "Z" with protective levels
unset. -/
theorem sync_with_exchange_reconciles_witness :
    "X" ∉ pt_keys (sync_with_exchange 7 trX snapX) ∧
    (⟨⟨"X", Side.BUY, 1, 100, 0, some 95, []⟩, 105, 7, "external_close", 25⟩ :
      ClosedPosition) ∈ (sync_with_exchange 7 trX snapX).closed_positions ∧
    pt_get_position (sync_with_exchange 7 trX snapX) "Z" =
      some (adoptedPosition 7 ⟨"Z", -3, 50, 50, 2, 0⟩) := by
  have h := sync_with_exchange_reconciles trX snapX 7 (by decide)
  have h1 := h.1 "X" (by decide) (by decide)
  refine ⟨h1.1, ?_, ?_⟩
  · obtain ⟨pos, hget, hmem⟩ := h1.2
    have hpos : pos = ⟨"X", Side.BUY, 1, 100, 0, some 95, []⟩ := by
      have hg2 : pt_get_position trX "X" =
          some (⟨"X", Side.BUY, 1, 100, 0, some 95, []⟩ : Position) := by decide
      rw [hg2] at hget
      exact (Option.some.inj hget).symm
    have he : (⟨pos, syncExitPrice snapX "X", 7, "external_close",
        syncPnl snapX "X"⟩ : ClosedPosition) =
        ⟨⟨"X", Side.BUY, 1, 100, 0, some 95, []⟩, 105, 7, "external_close", 25⟩ := by
      rw [hpos]
      have hp : syncExitPrice snapX "X" = 105 := by decide
      have hq : syncPnl snapX "X" = 25 := by decide
      rw [hp, hq]
    exact he ▸ hmem
  · exact (h.2 ⟨"Z", -3, 50, 50, 2, 0⟩ (by decide) (by decide) (by decide)).1

/-- Claim C9: ledger uniqueness and no-overwrite.  The `positions`
dict holds at most one entry per symbol: `add_position` and
`close_position` (and full reconciliation) preserve key
distinctness; adding an already-tracked symbol returns the ledger
unchanged; closing a tracked symbol removes it from the open set and
appends exactly one history record carrying the exit price, exit
time, exit reason and pnl. -/
theorem ledger_uniqueness_no_overwrite :
    (∀ (tr : PositionTracker) (p : Position), (pt_keys tr).Nodup →
        (pt_keys (pt_add_position tr p)).Nodup) ∧
    (∀ (tr : PositionTracker) (p : Position), p.symbol ∈ pt_keys tr →
        pt_add_position tr p = tr) ∧
    (∀ (tr : PositionTracker) (sym : String) (price : ℚ) (now : ℕ)
        (reason : String) (pnl : ℚ), (pt_keys tr).Nodup →
        (pt_keys (pt_close_position tr sym price now reason pnl)).Nodup) ∧
    (∀ (tr : PositionTracker) (sym : String) (price : ℚ) (now : ℕ)
        (reason : String) (pnl : ℚ) (pos : Position),
        pt_get_position tr sym = some pos →
        sym ∉ pt_keys (pt_close_position tr sym price now reason pnl) ∧
        (pt_close_position tr sym price now reason pnl).closed_positions =
          tr.closed_positions ++ [⟨pos, price, now, reason, pnl⟩]) ∧
    (∀ (now : ℕ) (tr : PositionTracker) (snap : List ExchangePosition),
        (pt_keys tr).Nodup →
        (pt_keys (sync_with_exchange now tr snap)).Nodup) := by
  refine ⟨pt_add_keys_nodup, ?_, ?_, ?_, ?_⟩
  · intro tr p hmem
    unfold pt_add_position
    rw [if_pos]
    rw [pt_get_isSome_iff]
    exact hmem
  · intro tr sym price now reason pnl hnd
    exact pt_close_keys_nodup tr sym price now reason pnl hnd
  · intro tr sym price now reason pnl pos hget
    exact ⟨pt_close_keys_not_mem tr sym price now reason pnl pos hget,
      pt_close_closed_eq tr sym price now reason pnl pos hget⟩
  · intro now tr snap hnd
    have h1 : (pt_keys ((pt_keys tr).foldl (sync_close_step now snap) tr)).Nodup :=
      foldl_preserve (fun x => (pt_keys x).Nodup) (sync_close_step now snap)
        (fun a b hp => by
          unfold sync_close_step
          split
          · exact pt_close_keys_nodup a b _ now _ _ hp
          · exact hp) _ tr hnd
    exact foldl_preserve (fun x => (pt_keys x).Nodup) (sync_adopt_step now)
      (fun a b hp => by
        unfold sync_adopt_step
        split
        · exact pt_add_keys_nodup a _ hp
        · exact hp) snap _ h1

/-- Witness for C9 on the concrete ledger `trX`: re-adding its
symbol leaves it unchanged, and closing it removes the symbol and
appends exactly the expected history record. -/
theorem ledger_uniqueness_no_overwrite_witness :
    pt_add_position trX ⟨"X", Side.SELL, 9, 50, 3, none, []⟩ = trX ∧
    "X" ∉ pt_keys (pt_close_position trX "X" 110 7 "manual" 10) ∧
    (pt_close_position trX "X" 110 7 "manual" 10).closed_positions =
      trX.closed_positions ++
        [⟨⟨"X", Side.BUY, 1, 100, 0, some 95, []⟩, 110, 7, "manual", 10⟩] := by
  refine ⟨ledger_uniqueness_no_overwrite.2.1 trX _ (by decide), ?_, ?_⟩
  · exact (ledger_uniqueness_no_overwrite.2.2.2.1 trX "X" 110 7 "manual" 10
      ⟨"X", Side.BUY, 1, 100, 0, some 95, []⟩ (by decide)).1
  · exact (ledger_uniqueness_no_overwrite.2.2.2.1 trX "X" 110 7 "manual" 10
      ⟨"X", Side.BUY, 1, 100, 0, some 95, []⟩ (by decide)).2

/-- Counterexample for C2: at capacity, `can_trade` admits `sigHighVol`
for "X" through the displacement branch even though its implied
volatility exceeds 5 percent and "X" is inside its cooldown window, because
that branch returns before the volatility and cooldown checks. -/
theorem can_trade_displacement_skips_checks :
    can_trade stCap "X" sigHighVol = true ∧
    (5/100 : ℚ) < sigHighVol.atr / sigHighVol.price ∧
    stCap.now - lookupD stCap.lastTradeTime "X" 0 < stCap.cooldown := by
  refine ⟨?_, by norm_num [sigHighVol], by norm_num [stCap, lookupD]⟩
  norm_num [can_trade, stCap, sigHighVol, weakestSymbol, lookupD, numOpenPositions]
  exact ⟨by decide, by norm_num [abs_of_nonneg], by decide, by norm_num [abs_of_nonneg]⟩

/-- Claim C2 (amended): `can_trade` runs its checks in source order
and short-circuits, but the displacement branch of the capacity
check returns `true` immediately.  Hence an admitted signal
satisfies the volatility bound (atr/price at most 5%) and lies
outside its cooldown window whenever the open-position count is
below capacity, while a signal admitted at capacity was admitted by
strict displacement over the weakest tracked strength. -/
theorem can_trade_admission_conditions (st : RiskState) (sym : String)
    (sig : Signal) (h : can_trade st sym sig = true) :
    (numOpenPositions st.positions < st.maxPositions →
        sig.atr / sig.price ≤ 5/100 ∧
        st.cooldown ≤ st.now - lookupD st.lastTradeTime sym 0) ∧
    (st.maxPositions ≤ numOpenPositions st.positions →
        ∃ w, weakestSymbol st.positionStrengths = some w ∧ w ≠ "" ∧
          |lookupD st.positionStrengths w 0| * (12/10) < |sig.strength|) := by
  unfold can_trade at h
  split at h
  · exact absurd h (by simp)
  · split at h
    · exact absurd h (by simp)
    · split at h
      · exact absurd h (by simp)
      · split at h
        · rename_i hcap
          constructor
          · intro hlt
            exact absurd hcap (by omega)
          · intro _
            rcases hw : weakestSymbol st.positionStrengths with _ | w
            · rw [hw] at h
              dsimp only at h
              exact absurd h (by simp)
            · rw [hw] at h
              dsimp only at h
              by_cases hw2 : w ≠ ""
              · rw [if_pos hw2] at h
                refine ⟨w, rfl, hw2, ?_⟩
                simpa using h
              · rw [if_neg hw2] at h
                exact absurd h (by simp)
        · rename_i hcap
          split at h
          · exact absurd h (by simp)
          · split at h
            · exact absurd h (by simp)
            · rename_i hvol hcool
              refine ⟨fun _ => ⟨le_of_not_lt hvol, le_of_not_lt hcool⟩, fun hge => absurd hge hcap⟩

/-- Witness for C2 (amended): `can_trade` admits `sigMild` for "X"
below capacity, and the theorem then yields the volatility and
cooldown bounds at that concrete state. -/
theorem can_trade_admission_conditions_witness :
    (numOpenPositions stLow.positions < stLow.maxPositions →
        sigMild.atr / sigMild.price ≤ 5/100 ∧
        stLow.cooldown ≤ stLow.now - lookupD stLow.lastTradeTime "X" 0) ∧
    (stLow.maxPositions ≤ numOpenPositions stLow.positions →
        ∃ w, weakestSymbol stLow.positionStrengths = some w ∧ w ≠ "" ∧
          |lookupD stLow.positionStrengths w 0| * (12/10) < |sigMild.strength|) := by
  refine can_trade_admission_conditions stLow "X" sigMild ?_
  norm_num [can_trade, stLow, sigMild, weakestSymbol, lookupD, numOpenPositions,
    abs_of_nonneg]

/-- Claim C4: displacement boundary.  In the capacity state `stCap`
(one open symbol at tracked strength 0.40, `max_concurrent = 1`), a
new "X" signal is admitted exactly when its absolute strength
strictly exceeds 0.40 × 1.2 = 0.48; strength exactly 0.48 is
rejected and 0.481 is admitted. -/
theorem can_trade_displacement_boundary :
    (∀ s atr price : ℚ,
        can_trade stCap "X" ⟨s, atr, price⟩ = true ↔ (48/100 : ℚ) < |s|) ∧
    can_trade stCap "X" ⟨48/100, 0, 100⟩ = false ∧
    can_trade stCap "X" ⟨481/1000, 0, 100⟩ = true := by
  have hmain : ∀ s atr price : ℚ,
      can_trade stCap "X" ⟨s, atr, price⟩ = true ↔ (48/100 : ℚ) < |s| := by
    intro s atr price
    norm_num [can_trade, stCap, weakestSymbol, lookupD, numOpenPositions]
    constructor
    · rintro ⟨-, -, -, h⟩
      have h48 : |(2/5 : ℚ)| * (6/5) = 12/25 := by
        norm_num [abs_of_nonneg]
      rw [h48] at h
      exact h
    · intro h
      have h48 : |(2/5 : ℚ)| * (6/5) = 12/25 := by
        norm_num [abs_of_nonneg]
      refine ⟨by decide, ?_, by decide, by rw [h48]; exact h⟩
      calc (7/20 : ℚ) ≤ 12/25 := by norm_num
        _ ≤ |s| := le_of_lt h
  refine ⟨hmain, ?_, (hmain _ _ _).mpr (by norm_num [abs_of_nonneg])⟩
  rcases hb : can_trade stCap "X" ⟨48/100, 0, 100⟩ with _ | _
  · rfl
  · have h2 := (hmain _ _ _).mp hb
    norm_num [abs_of_nonneg] at h2

/-- Claim C1 evaluated at the failing input: for a BUY at current
market price 100 with stop-loss proposed at 99.97 (precision 2), the
effective `_place_sl_tp_orders` hands `_place_orders_with_retry` a
stop-loss of 99.97 — `max(sl_price, current_price - min_sl_diff)`
moves a too-far stop toward the market but leaves a too-tight stop
alone — so the placed stop is NOT at or below
100 × (1 − 0.0005) = 99.95 as the minimum-distance guard requires. -/
theorem adjust_sl_keeps_too_tight_stop :
    (adjustBracketPrices Side.BUY 100 2 (9997/100) [⟨102, 50⟩]).1 = 9997/100 ∧
    ¬((9997/100 : ℚ) ≤ 100 * (1 - 5/10000)) := by
  constructor
  · norm_num [adjustBracketPrices, pyRound, roundHalfEven]
  · norm_num

/-- Counterexample for C3: with the effective (overriding)
`_place_sl_tp_orders`, a run whose individual placements all succeed
returns success even when the exchange reports 0 open orders for the
symbol, although 0 is below the expected 1 + 2 bracket orders — no
open-orders verification happens. -/
theorem place_sl_tp_no_deficit_failure :
    (place_sl_tp_orders_v2 (fun _ => none) 0 Side.BUY 100 2 (999/10)
        [⟨101, 50⟩, ⟨102, 50⟩]).2 = Except.ok () ∧
    (0 : ℕ) < ([⟨101, 50⟩, ⟨102, 50⟩] : List TP).length + 1 :=
  ⟨rfl, by decide⟩

/-- Claim C3 (amended): the open-orders verification exists only in
the shadowed first definition of `_place_sl_tp_orders`.  The
effective definition succeeds whenever placement succeeds, for every
open-orders count; the dead first definition is the one that raises
exactly when fewer than 1 + N orders are reported. -/
theorem bracket_verification_only_in_shadowed_def :
    (∀ (count : ℕ) (side : Side) (cp : ℚ) (prec : ℕ) (sl : ℚ) (tps : List TP),
        (place_sl_tp_orders_v2 (fun _ => none) count side cp prec sl tps).2 =
          Except.ok ()) ∧
    (∀ (count : ℕ) (tps : List TP),
        place_sl_tp_orders_v1 count tps = Except.ok () ↔ tps.length + 1 ≤ count) := by
  constructor
  · intro count side cp prec sl tps
    rfl
  · intro count tps
    unfold place_sl_tp_orders_v1
    split
    · rename_i hlt
      constructor
      · intro h
        exact absurd h (by simp)
      · intro h
        omega
    · rename_i hge
      simp
      omega

/-- Claim C5: bounded bracket retry.  When all three placement
attempts fail, `_place_orders_with_retry` makes exactly 3 attempts,
re-raises the last error, and derives each later attempt's prices
from the previous ones by the `adjPrices` nudge — multiplication by
1.001 for BUY and 0.999 for SELL (rounded to the price precision),
applied after the first and after the second failure. -/
theorem place_orders_with_retry_cap (env : ℕ → Option String) (side : Side)
    (prec : ℕ) (sl : ℚ) (tps : List TP) (m0 m1 m2 : String)
    (h0 : env 0 = some m0) (h1 : env 1 = some m1) (h2 : env 2 = some m2) :
    place_orders_with_retry env side prec sl tps =
      ([(sl, tps),
        adjPrices side prec sl tps,
        adjPrices side prec (adjPrices side prec sl tps).1
          (adjPrices side prec sl tps).2],
       Except.error m2) ∧
    (adjPrices side prec sl tps).1 =
      pyRound (sl * (if side = Side.BUY then 1001/1000 else 999/1000)) prec := by
  constructor
  · simp [place_orders_with_retry, retryGo, h0, h1, h2]
  · cases side
    · simp [adjPrices]
    · simp [adjPrices]

/-- Witness for C5 at a concrete all-fail run. -/
theorem place_orders_with_retry_cap_witness :
    place_orders_with_retry envFail Side.BUY 2 100 [⟨110, 50⟩] =
      ([(100, [⟨110, 50⟩]),
        adjPrices Side.BUY 2 100 [⟨110, 50⟩],
        adjPrices Side.BUY 2 (adjPrices Side.BUY 2 100 [⟨110, 50⟩]).1
          (adjPrices Side.BUY 2 100 [⟨110, 50⟩]).2],
       Except.error "margin check failed") ∧
    (adjPrices Side.BUY 2 100 [⟨110, 50⟩]).1 = pyRound (100 * (1001/1000)) 2 := by
  have h := place_orders_with_retry_cap envFail Side.BUY 2 100 [⟨110, 50⟩]
    "margin check failed" "margin check failed" "margin check failed" rfl rfl rfl
  exact ⟨h.1, by simpa using h.2⟩

/-- Claim C6: whenever the body of `place_order` raises, the single
`except` clause returns `None` with no rollback when the error text
contains "Order would immediately trigger", and otherwise runs
`_handle_failure` (rollback) and re-raises the same error. -/
theorem place_order_error_dispatch (env : PlaceOrderEnv) (msg : String)
    (h : placeOrderBodyErr env = some msg) :
    place_order env =
      if containsSub msg wouldTriggerMsg then
        ⟨PlaceOrderResult.deferred, false, entryFilledB env, recordedB env⟩
      else
        ⟨PlaceOrderResult.raised msg, true, entryFilledB env, recordedB env⟩ := by
  unfold place_order
  rw [h]

/-- Witness for C6: at `envDefer` the call returns `None` without
rollback; at `envHardFail` it rolls back and re-raises. -/
theorem place_order_error_dispatch_witness :
    placeOrderBodyErr envDefer =
      some "APIError(-2021): Order would immediately trigger." ∧
    place_order envDefer = ⟨PlaceOrderResult.deferred, false, false, false⟩ ∧
    place_order envHardFail =
      ⟨PlaceOrderResult.raised "Margin is insufficient", true, false, false⟩ := by
  refine ⟨rfl, ?_, ?_⟩
  · rw [place_order_error_dispatch envDefer
      "APIError(-2021): Order would immediately trigger." rfl]
    decide
  · rw [place_order_error_dispatch envHardFail "Margin is insufficient" rfl]
    decide

/-- Claim C10: the deferral covers the whole `place_order` body.  If
the earlier phases succeed — in particular the entry market order
filled — and bracket placement raises an error containing "Order
would immediately trigger", `place_order` returns `None`, runs no
rollback (no cancel-all, no flattening), and the position was not
recorded, leaving the filled entry without protective orders. -/
theorem place_order_bracket_trigger_defers (env : PlaceOrderEnv) (msg : String)
    (h1 : env.checkExistingErr = none) (h2 : env.entryErr = none)
    (h3 : env.fillPriceErr = none) (h4 : env.bracketErr = some msg)
    (h5 : containsSub msg wouldTriggerMsg = true) :
    place_order env = ⟨PlaceOrderResult.deferred, false, true, false⟩ := by
  have hb : placeOrderBodyErr env = some msg := by
    unfold placeOrderBodyErr
    rw [h1, h2, h3, h4]
  unfold place_order
  rw [hb]
  simp [h5, entryFilledB, recordedB, h1, h2, h3, h4]

/-- Witness for C10 at the concrete run `envBracketDefer`. -/
theorem place_order_bracket_trigger_defers_witness :
    envBracketDefer.bracketErr =
      some "APIError(-2021): Order would immediately trigger." ∧
    containsSub "APIError(-2021): Order would immediately trigger."
      wouldTriggerMsg = true ∧
    place_order envBracketDefer = ⟨PlaceOrderResult.deferred, false, true, false⟩ :=
  ⟨rfl, by decide,
    place_order_bracket_trigger_defers envBracketDefer
      "APIError(-2021): Order would immediately trigger." rfl rfl rfl rfl (by decide)⟩

/-- Counterexample for C7: closing the tracked BUY position sends
exactly one MARKET order on the opposite side for the full quantity,
but that order carries no reduce-only flag (`close_position` calls
`create_order` without `reduceOnly`, unlike `close_all_positions`
and `_check_existing_position`), so the claimed "market reduce-only
order" is not what the code places. -/
theorem close_position_not_reduce_only :
    (om_close_position trBuy envClose110 "BTC" "manual").ordersPlaced =
      [⟨"BTC", Side.SELL, 2, "MARKET", false⟩] ∧
    (⟨"BTC", Side.SELL, 2, "MARKET", false⟩ : OrderReq).reduceOnly = false :=
  ⟨by decide, rfl⟩

/-- Claim C7 (amended): `close_position` postcondition.  An
untracked symbol returns `None` and places no order; a tracked
position gets its pnl computed side-aware — BUY as
(exit − entry) × quantity, SELL as (entry − exit) × quantity — and a
single plain MARKET order (not flagged reduce-only) for the full
quantity on the opposite side is sent. -/
theorem close_position_postcondition (tr : PositionTracker) (env : OmCloseEnv)
    (sym reason : String) :
    (pt_get_position tr sym = none →
        om_close_position tr env sym reason =
          ⟨none, [], tr, none⟩) ∧
    (∀ pos, pt_get_position tr sym = some pos →
        (om_close_position tr env sym reason).ordersPlaced =
          [⟨sym, oppositeSide pos.side, pos.quantity, "MARKET", false⟩] ∧
        (om_close_position tr env sym reason).pnlComputed =
          some (calculate_pnl pos env.current_price) ∧
        (pos.side = Side.BUY →
            (om_close_position tr env sym reason).pnlComputed =
              some ((env.current_price - pos.entry_price) * pos.quantity)) ∧
        (pos.side = Side.SELL →
            (om_close_position tr env sym reason).pnlComputed =
              some ((pos.entry_price - env.current_price) * pos.quantity))) := by
  constructor
  · intro h
    unfold om_close_position
    rw [h]
  · intro pos h
    unfold om_close_position
    rw [h]
    refine ⟨?_, ?_, ?_, ?_⟩
    · dsimp only
      split
      · split
        · rfl
        · rfl
      · rfl
    · dsimp only
      split
      · split
        · rfl
        · rfl
      · rfl
    · intro hside
      dsimp only
      have : calculate_pnl pos env.current_price =
          (env.current_price - pos.entry_price) * pos.quantity := by
        unfold calculate_pnl
        rw [hside]
      split
      · split
        · rw [this]
        · rw [this]
      · rw [this]
    · intro hside
      dsimp only
      have : calculate_pnl pos env.current_price =
          (pos.entry_price - env.current_price) * pos.quantity := by
        unfold calculate_pnl
        rw [hside]
      split
      · split
        · rw [this]
        · rw [this]
      · rw [this]

/-- Witness for C7 (amended): entry 100, exit 110, quantity 2 on the
BUY side gives pnl 20; entry 100, exit 90, quantity 2 on the SELL
side gives pnl 20; the BUY close sends one SELL MARKET order of
quantity 2; an untracked symbol is a no-op. -/
theorem close_position_postcondition_witness :
    (om_close_position trBuy envClose110 "BTC" "manual").pnlComputed = some 20 ∧
    (om_close_position trSell envClose90 "ETH" "manual").pnlComputed = some 20 ∧
    (om_close_position trBuy envClose110 "BTC" "manual").ordersPlaced =
      [⟨"BTC", Side.SELL, 2, "MARKET", false⟩] ∧
    om_close_position trBuy envClose110 "DOGE" "manual" =
      ⟨none, [], trBuy, none⟩ := by
  have hb := (close_position_postcondition trBuy envClose110 "BTC" "manual").2
    ⟨"BTC", Side.BUY, 2, 100, 0, some 95, []⟩ (by decide)
  have hs := (close_position_postcondition trSell envClose90 "ETH" "manual").2
    ⟨"ETH", Side.SELL, 2, 100, 0, some 105, []⟩ (by decide)
  have hn := (close_position_postcondition trBuy envClose110 "DOGE" "manual").1
    (by decide)
  refine ⟨?_, ?_, hb.1, hn⟩
  · rw [hb.2.2.1 rfl]
    norm_num [envClose110]
  · rw [hs.2.2.2 rfl]
    norm_num [envClose90]
